import Mathlib

set_option linter.unusedVariables false

/-!
Shallow embedding of `src/tile/base/buffer.h` (namespace `vertexai::tile`):
the `View` / `Buffer` contract and the reference implementation
`SimpleBuffer` with its nested `SimpleView`.

Modelling choices, each traceable to the source:

* A C++ `char` is modelled as `Char` (`Byte` below); a `std::vector<char>`
  is a `List Byte`.
* `SimpleBuffer` holds exactly its one field `data_ : std::vector<char>`.
* `SimpleView` is constructed as `SimpleView(data_.data(), data_.size())`:
  it stores a raw pointer into the buffer's backing store plus a size.
  We model the pointer as an offset (`off`) into the owning buffer's
  `data_` (the constructor always passes `data_.data()`, i.e. offset 0).
  Reads and writes through the view therefore go through the current
  buffer state: that is the pointer aliasing of the source, made explicit.
* `boost::future` as produced here (`boost::make_ready_future`) is a ready
  future; the type also has a failure channel (`Future.failed`) so that
  "never takes the failure channel" is a statable property.
* `MapCurrent` may in general also raise synchronously, so its result type
  is `Except ErrorKind (Future SimpleView)`; `SimpleBuffer::MapCurrent`
  returns `Except.ok (Future.ready _)`, exactly the source's
  `return boost::make_ready_future(std::move(view))`.
* `Buffer::Clone`'s default body is `throw std::runtime_error("Not
  implemented")`: a thrown generic C++ exception carrying a message.
  `ErrorKind` models the spec's error taxonomy (§7); the source's throw
  maps to the `runtimeError` constructor, and the taxonomy also has the
  structured `unsupportedOperation` / `resourceFailure` /
  `transferFailure` conditions the spec speaks about, which the source
  never produces.
* `SimpleView::WriteBack` has an empty body: it returns the buffer state
  unchanged.
-/

namespace Tile

/-- A C++ `char`, the element type of the buffer's backing store. -/
abbrev Byte := Char

/-- The zero byte: the fill value of the size constructor, which value-initializes
every element of the backing vector. -/
def zeroByte : Byte := Char.ofNat 0

/-- Model of the opaque `context::Context` pass-through argument; no field of it is
ever inspected by the code under `src/tile/base/buffer.h`. -/
structure Context where

/-- Error taxonomy of the design (spec §7).  The source's
`throw std::runtime_error(msg)` is `runtimeError msg`; the remaining
constructors are the structured conditions the taxonomy distinguishes. -/
inductive ErrorKind where
  | runtimeError (msg : String)
  | unsupportedOperation
  | resourceFailure
  | transferFailure
deriving DecidableEq

/-- A `boost::future` as used here: either already completed with a value
(`boost::make_ready_future`) or carrying an asynchronous failure. -/
inductive Future (α : Type) where
  | ready (a : α)
  | failed (e : ErrorKind)
deriving DecidableEq

/-- The nested `SimpleBuffer::SimpleView`: a raw byte range into the owning buffer's
backing store.  The source stores `char* data_` and `size_t size_`; the
pointer is modelled as an offset `off` into the owning `SimpleBuffer`'s
`data_` vector. -/
structure SimpleView where
  off : Nat
  size : Nat
deriving DecidableEq

/-- The reference implementation `SimpleBuffer`: a buffer backed by a
`std::vector<char> data_`. -/
structure SimpleBuffer where
  data_ : List Byte
deriving DecidableEq

/-- Size constructor `SimpleBuffer(uint64_t size)`: a vector of `size` zero bytes. -/
def SimpleBuffer.ofSize (n : Nat) : SimpleBuffer :=
  ⟨List.replicate n zeroByte⟩

/-- Byte-sequence constructor `SimpleBuffer(const std::vector<char>& data)`:
copies the given bytes. -/
def SimpleBuffer.ofData (d : List Byte) : SimpleBuffer :=
  ⟨d⟩

/-- Method `size()`: returns `data_.size()`. -/
def SimpleBuffer.size (b : SimpleBuffer) : Nat :=
  b.data_.length

/-- Method `MapCurrent`: builds `SimpleView(data_.data(), data_.size())` and wraps
it in `boost::make_ready_future`.  The `Except` layer is the synchronous
failure channel of the `Buffer::MapCurrent` contract, never taken here. -/
def SimpleBuffer.MapCurrent (b : SimpleBuffer) (ctx : Context) :
    Except ErrorKind (Future SimpleView) :=
  Except.ok (Future.ready ⟨0, b.data_.length⟩)

/-- Method `MapDiscard`: builds `SimpleView(data_.data(), data_.size())` and
returns it synchronously. -/
def SimpleBuffer.MapDiscard (b : SimpleBuffer) (ctx : Context) : SimpleView :=
  ⟨0, b.data_.length⟩

/-- Method `Clone` of `SimpleBuffer`: returns a fresh `SimpleBuffer(data_)`, i.e.
a full copy of the backing vector into a fresh, independent buffer. -/
def SimpleBuffer.Clone (b : SimpleBuffer) : SimpleBuffer :=
  ⟨b.data_⟩

/-- The base class default
`virtual BufferPtr Clone() { throw std::runtime_error("Not implemented"); }`:
it throws before touching any state, so the buffer state `s` (of whatever
backend type `σ`) is returned unchanged alongside the failure. -/
def Buffer.CloneDefault {σ : Type} (s : σ) : Except ErrorKind SimpleBuffer × σ :=
  (Except.error (ErrorKind.runtimeError "Not implemented"), s)

/-- Method `WriteBack` of `SimpleView`: the body is empty, so the buffer state is
returned unchanged. -/
def SimpleView.WriteBack (v : SimpleView) (ctx : Context) (b : SimpleBuffer) :
    SimpleBuffer :=
  b

/-- Indexed read `View::operator[]` / `View::data()[pos]`: reading byte `pos`
through the view dereferences the stored pointer, i.e. reads the owning
buffer's current backing store at `off + pos`.  An out-of-range read is
undefined behaviour in the source, rendered here as `none`. -/
def SimpleView.idx (v : SimpleView) (b : SimpleBuffer) (pos : Nat) : Option Byte :=
  b.data_[v.off + pos]?

/-- Writing byte `pos` through the view (`view[pos] = c`) stores through the
pointer into the owning buffer's backing store. -/
def SimpleView.set (v : SimpleView) (b : SimpleBuffer) (pos : Nat) (c : Byte) :
    SimpleBuffer :=
  ⟨b.data_.set (v.off + pos) c⟩

/-- The byte range `[data(), data() + size())` the view maps, read off the
owning buffer's current backing store. -/
def SimpleView.bytes (v : SimpleView) (b : SimpleBuffer) : List Byte :=
  (b.data_.drop v.off).take v.size

/-- Method `str()`: copies the mapped byte range `[cbegin(), cend())` into a
string. -/
def SimpleView.str (v : SimpleView) (b : SimpleBuffer) : String :=
  String.mk (v.bytes b)

/-- Writing the byte sequence `cs` through view `v` starting at position
`i`: the loop `for c in cs: view[i++] = c`. -/
def SimpleView.writeFrom (v : SimpleView) (b : SimpleBuffer) (i : Nat) :
    List Byte → SimpleBuffer
  | [] => b
  | c :: rest => v.writeFrom (v.set b i c) (i + 1) rest

/-- Writing a whole byte sequence through view `v` from position 0. -/
def SimpleView.writeBytes (v : SimpleView) (b : SimpleBuffer) (cs : List Byte) :
    SimpleBuffer :=
  v.writeFrom b 0 cs

/-- The operations a caller can perform on a `SimpleBuffer` (spec §4.2),
used to state invariants over arbitrary operation sequences. -/
inductive BufOp where
  | mapCurrent
  | mapDiscard
  | clone
  | writeBack
  | viewSet (pos : Nat) (c : Byte)

/-- Effect of one operation on the buffer's state.  Mapping constructs a
view without touching the store; `Clone` copies out of it; `WriteBack` is
the no-op of `SimpleView::WriteBack`; `viewSet` writes one byte through a
mapped view. -/
def SimpleBuffer.applyOp (b : SimpleBuffer) (ctx : Context) : BufOp → SimpleBuffer
  | BufOp.mapCurrent => b
  | BufOp.mapDiscard => b
  | BufOp.clone => b
  | BufOp.writeBack => (b.MapDiscard ctx).WriteBack ctx b
  | BufOp.viewSet pos c => (b.MapDiscard ctx).set b pos c

/-- Effect of a sequence of operations on the buffer's state. -/
def SimpleBuffer.applyOps (b : SimpleBuffer) (ctx : Context) (ops : List BufOp) :
    SimpleBuffer :=
  ops.foldl (fun a op => a.applyOp ctx op) b

/-! Helper lemmas. -/

/-- Reading a freshly set position of a list. -/
theorem getElem?_set_self_byte (l : List Byte) (pos : Nat) (c : Byte)
    (h : pos < l.length) : (l.set pos c)[pos]? = some c :=
  List.getElem?_set_self h

/-- Reading inside a replicated list yields the replicated element. -/
theorem getElem?_replicate_byte (n i : Nat) (c : Byte) (h : i < n) :
    (List.replicate n c)[i]? = some c := by
  rw [List.getElem?_replicate, if_pos h]

/-- A full-length sequential write through a view at offset 0 replaces the
backing store, stated with an explicit already-written prefix `l1`. -/
theorem writeFrom_append (v : SimpleView) (hv : v.off = 0) :
    ∀ (cs l1 l2 : List Byte), l2.length = cs.length →
      (v.writeFrom ⟨l1 ++ l2⟩ l1.length cs).data_ = l1 ++ cs := by
  intro cs
  induction cs with
  | nil =>
    intro l1 l2 h
    have : l2 = [] := List.eq_nil_of_length_eq_zero h
    simp [SimpleView.writeFrom, this]
  | cons c rest ih =>
    intro l1 l2 h
    cases l2 with
    | nil => simp at h
    | cons d t =>
      have hset : v.set ⟨l1 ++ d :: t⟩ l1.length c = ⟨l1 ++ c :: t⟩ := by
        simp [SimpleView.set, hv, List.set_append]
      have ht : t.length = rest.length := by
        simpa using h
      calc (v.writeFrom ⟨l1 ++ d :: t⟩ l1.length (c :: rest)).data_
          = (v.writeFrom ⟨(l1 ++ [c]) ++ t⟩ (l1 ++ [c]).length rest).data_ := by
            simp [SimpleView.writeFrom, hset]
        _ = (l1 ++ [c]) ++ rest := ih (l1 ++ [c]) t ht
        _ = l1 ++ c :: rest := by simp

/-- Writing a byte sequence of exactly the buffer's size through a view at
offset 0 replaces the whole backing store with that sequence. -/
theorem writeBytes_full (v : SimpleView) (b : SimpleBuffer) (cs : List Byte)
    (hv : v.off = 0) (h : cs.length = b.size) :
    (v.writeBytes b cs).data_ = cs := by
  have := writeFrom_append v hv cs [] b.data_ h.symm
  simpa [SimpleView.writeBytes] using this

/-- Every single buffer operation preserves the buffer's size. -/
theorem applyOp_size (b : SimpleBuffer) (ctx : Context) (op : BufOp) :
    (b.applyOp ctx op).size = b.size := by
  cases op <;>
    simp [SimpleBuffer.applyOp, SimpleBuffer.size, SimpleBuffer.MapDiscard,
      SimpleView.WriteBack, SimpleView.set]

/-- Every sequence of buffer operations preserves the buffer's size. -/
theorem applyOps_size (ctx : Context) (ops : List BufOp) :
    ∀ b : SimpleBuffer, (b.applyOps ctx ops).size = b.size := by
  induction ops with
  | nil => intro b; rfl
  | cons op rest ih =>
    intro b
    calc (b.applyOps ctx (op :: rest)).size
        = ((b.applyOp ctx op).applyOps ctx rest).size := rfl
      _ = (b.applyOp ctx op).size := ih _
      _ = b.size := applyOp_size b ctx op

/-! Claim theorems. -/

/-- C1: writing any byte sequence `cs` of the buffer's size through a mapped
view and calling `WriteBack` makes a subsequently mapped view — whether via
`MapDiscard` or via `MapCurrent`'s ready future — read back exactly `cs`. -/
theorem C1_roundtrip_writeback (b : SimpleBuffer) (ctx : Context) (cs : List Byte)
    (h : cs.length = b.size) :
    (let b2 := (b.MapDiscard ctx).WriteBack ctx ((b.MapDiscard ctx).writeBytes b cs)
     (b2.MapDiscard ctx).bytes b2 = cs ∧
       ∃ v2, b2.MapCurrent ctx = Except.ok (Future.ready v2) ∧ v2.bytes b2 = cs) := by
  have hw : ((⟨0, b.data_.length⟩ : SimpleView).writeBytes b cs).data_ = cs :=
    writeBytes_full ⟨0, b.data_.length⟩ b cs rfl h
  constructor
  · simp [SimpleView.WriteBack, SimpleBuffer.MapDiscard, SimpleView.bytes, hw]
  · refine ⟨⟨0, ((⟨0, b.data_.length⟩ : SimpleView).writeBytes b cs).data_.length⟩,
      rfl, ?_⟩
    simp [SimpleView.WriteBack, SimpleBuffer.MapDiscard, SimpleView.bytes, hw]

/-- C1 witness: the round-trip at a concrete 2-byte buffer and sequence. -/
theorem C1_roundtrip_writeback_witness :
    ("AB".data.length = (SimpleBuffer.ofSize 2).size) ∧
    (let b := SimpleBuffer.ofSize 2
     let b2 := (b.MapDiscard Context.mk).WriteBack Context.mk
       ((b.MapDiscard Context.mk).writeBytes b "AB".data)
     (b2.MapDiscard Context.mk).bytes b2 = "AB".data ∧
       ∃ v2, b2.MapCurrent Context.mk = Except.ok (Future.ready v2) ∧
         v2.bytes b2 = "AB".data) :=
  ⟨by decide, C1_roundtrip_writeback (SimpleBuffer.ofSize 2) Context.mk "AB".data
    (by decide)⟩

/-- C2: `Clone` yields a buffer of equal size and byte-identical contents at
the moment of cloning, and the clone is independent: in the concrete
scenario, cloning `[1,2,3]` and then overwriting the original through its
mapped view with `[9,9,9]` leaves the clone's mapped view reading `[1,2,3]`
while the original's view reads `[9,9,9]`. -/
theorem C2_clone_independent (b : SimpleBuffer) :
    (b.Clone.size = b.size ∧ b.Clone.data_ = b.data_) ∧
    (let b0 := SimpleBuffer.ofData [Char.ofNat 1, Char.ofNat 2, Char.ofNat 3]
     let b2 := b0.Clone
     let b0w := (b0.MapDiscard Context.mk).writeBytes b0
       [Char.ofNat 9, Char.ofNat 9, Char.ofNat 9]
     (b2.MapDiscard Context.mk).bytes b2
         = [Char.ofNat 1, Char.ofNat 2, Char.ofNat 3] ∧
       (b0w.MapDiscard Context.mk).bytes b0w
         = [Char.ofNat 9, Char.ofNat 9, Char.ofNat 9]) :=
  ⟨⟨rfl, rfl⟩, by decide⟩

/-- C3 counterexample: the base `Buffer::Clone` default fails by throwing the
generic exception `std::runtime_error("Not implemented")`, not by returning
the structured unsupported-operation condition the claim asserts. -/
theorem C3_counterexample :
    (Buffer.CloneDefault (SimpleBuffer.ofSize 4)).1
        = Except.error (ErrorKind.runtimeError "Not implemented") ∧
      (Buffer.CloneDefault (SimpleBuffer.ofSize 4)).1
        ≠ Except.error ErrorKind.unsupportedOperation := by
  refine ⟨rfl, ?_⟩
  simp [Buffer.CloneDefault]

/-- C3 amended: for every backend state, the default `Clone` fails by
throwing the generic runtime exception with the message "Not implemented"
— distinguishable from other failures only by that message, not by a
dedicated unsupported-operation error kind — and leaves the state
unchanged. -/
theorem C3_default_clone (σ : Type) (s : σ) :
    Buffer.CloneDefault s
      = (Except.error (ErrorKind.runtimeError "Not implemented"), s) :=
  rfl

/-- C4: a `SimpleBuffer` constructed with size `n` reports `size() = n`, and
still reports `n` after any sequence of mapping, cloning, write-back and
view-write operations. -/
theorem C4_size_immutable (n : Nat) (ctx : Context) (ops : List BufOp) :
    (SimpleBuffer.ofSize n).size = n ∧
      ((SimpleBuffer.ofSize n).applyOps ctx ops).size = n := by
  have h0 : (SimpleBuffer.ofSize n).size = n := by
    simp [SimpleBuffer.ofSize, SimpleBuffer.size]
  exact ⟨h0, (applyOps_size ctx ops _).trans h0⟩

/-- C5: a freshly size-constructed `SimpleBuffer` is zero-initialized: the
view mapped by `MapDiscard` reads the zero byte at every index `i < n`,
its full byte range is `n` zero bytes, and the view from `MapCurrent`'s
ready future reads the same zero byte. -/
theorem C5_zero_init (n : Nat) (ctx : Context) (i : Nat) (h : i < n) :
    ((SimpleBuffer.ofSize n).MapDiscard ctx).bytes (SimpleBuffer.ofSize n)
        = List.replicate n zeroByte ∧
      ((SimpleBuffer.ofSize n).MapDiscard ctx).idx (SimpleBuffer.ofSize n) i
        = some zeroByte ∧
      ∃ v, (SimpleBuffer.ofSize n).MapCurrent ctx = Except.ok (Future.ready v) ∧
        v.idx (SimpleBuffer.ofSize n) i = some zeroByte := by
  refine ⟨?_, ?_, ⟨0, n⟩, ?_, ?_⟩
  · simp [SimpleBuffer.MapDiscard, SimpleView.bytes, SimpleBuffer.ofSize]
  · simpa [SimpleBuffer.MapDiscard, SimpleView.idx, SimpleBuffer.ofSize] using
      getElem?_replicate_byte n i zeroByte h
  · simp [SimpleBuffer.MapCurrent, SimpleBuffer.ofSize]
  · simpa [SimpleView.idx, SimpleBuffer.ofSize] using
      getElem?_replicate_byte n i zeroByte h

/-- C5 witness: zero-initialization at the concrete size 3, index 1. -/
theorem C5_zero_init_witness :
    ((SimpleBuffer.ofSize 3).MapDiscard Context.mk).bytes (SimpleBuffer.ofSize 3)
        = List.replicate 3 zeroByte ∧
      ((SimpleBuffer.ofSize 3).MapDiscard Context.mk).idx (SimpleBuffer.ofSize 3) 1
        = some zeroByte ∧
      ∃ v, (SimpleBuffer.ofSize 3).MapCurrent Context.mk
          = Except.ok (Future.ready v) ∧
        v.idx (SimpleBuffer.ofSize 3) 1 = some zeroByte :=
  C5_zero_init 3 Context.mk 1 (by decide)

/-- C6: for the reference implementation, the view `MapDiscard` returns is
exactly the view inside `MapCurrent`'s ready future — same offset 0 into
the backing store and same size, the whole store — and `MapDiscard` leaves
the buffer's prior contents intact: the view reads back all of `data_`. -/
theorem C6_map_equivalence (b : SimpleBuffer) (ctx ctx2 : Context) :
    b.MapCurrent ctx = Except.ok (Future.ready (b.MapDiscard ctx2)) ∧
      (b.MapDiscard ctx2).off = 0 ∧
      (b.MapDiscard ctx2).size = b.size ∧
      (b.MapDiscard ctx2).bytes b = b.data_ := by
  refine ⟨rfl, rfl, rfl, ?_⟩
  simp [SimpleBuffer.MapDiscard, SimpleView.bytes]

/-- C7: `SimpleBuffer::MapCurrent` always succeeds with an already-completed
future holding a view that aliases the whole backing store (offset 0, full
size); neither the synchronous `Except.error` channel nor the asynchronous
`Future.failed` channel is ever taken. -/
theorem C7_mapcurrent_total (b : SimpleBuffer) (ctx : Context) :
    ∃ v, b.MapCurrent ctx = Except.ok (Future.ready v) ∧
      v.off = 0 ∧ v.size = b.size ∧
      (∀ e, b.MapCurrent ctx ≠ Except.error e) ∧
      (∀ e, b.MapCurrent ctx ≠ Except.ok (Future.failed e)) :=
  ⟨⟨0, b.data_.length⟩, rfl, rfl, rfl,
    fun e => by simp [SimpleBuffer.MapCurrent],
    fun e => by simp [SimpleBuffer.MapCurrent]⟩

/-- C8: the concrete scenario — allocate 16 bytes, `MapDiscard`, write the
ASCII bytes of "HELLO, WORLD!!!!", `WriteBack`, `MapCurrent`, read `str()`
— yields exactly "HELLO, WORLD!!!!"; and in general `str()` on an in-range
view is the string of exactly the `size` mapped bytes starting at `data()`. -/
theorem C8_hello_world (b : SimpleBuffer) (v : SimpleView)
    (h : v.off + v.size ≤ b.size) :
    (let b0 := SimpleBuffer.ofSize 16
     let b2 := (b0.MapDiscard Context.mk).WriteBack Context.mk
       ((b0.MapDiscard Context.mk).writeBytes b0 "HELLO, WORLD!!!!".data)
     b2.MapCurrent Context.mk
         = Except.ok (Future.ready (b2.MapDiscard Context.mk)) ∧
       (b2.MapDiscard Context.mk).str b2 = "HELLO, WORLD!!!!") ∧
    (v.str b).data = v.bytes b ∧ (v.str b).length = v.size := by
  refine ⟨⟨rfl, by decide⟩, rfl, ?_⟩
  show (v.bytes b).length = v.size
  simp only [SimpleView.bytes, List.length_take, List.length_drop]
  simp only [SimpleBuffer.size] at h
  omega

/-- C8 witness: the scenario plus the general `str()` facts at a concrete
4-byte buffer and a strict sub-range view of offset 1 and size 2. -/
theorem C8_hello_world_witness :
    (⟨1, 2⟩ : SimpleView).off + (⟨1, 2⟩ : SimpleView).size
        ≤ (SimpleBuffer.ofSize 4).size ∧
    ((let b0 := SimpleBuffer.ofSize 16
      let b2 := (b0.MapDiscard Context.mk).WriteBack Context.mk
        ((b0.MapDiscard Context.mk).writeBytes b0 "HELLO, WORLD!!!!".data)
      b2.MapCurrent Context.mk
          = Except.ok (Future.ready (b2.MapDiscard Context.mk)) ∧
        (b2.MapDiscard Context.mk).str b2 = "HELLO, WORLD!!!!") ∧
     ((⟨1, 2⟩ : SimpleView).str (SimpleBuffer.ofSize 4)).data
        = (⟨1, 2⟩ : SimpleView).bytes (SimpleBuffer.ofSize 4) ∧
     ((⟨1, 2⟩ : SimpleView).str (SimpleBuffer.ofSize 4)).length
        = (⟨1, 2⟩ : SimpleView).size) :=
  ⟨by decide, C8_hello_world (SimpleBuffer.ofSize 4) ⟨1, 2⟩ (by decide)⟩

/-- C9: every view the reference implementation hands out — from `MapDiscard`
or inside `MapCurrent`'s ready future — has `size` at most the owning
buffer's `size`, and the bound keeps holding against the buffer as it
evolves under any further sequence of operations (the view's lifetime up to
`WriteBack`). -/
theorem C9_view_size_le (b : SimpleBuffer) (ctx : Context) (ops : List BufOp) :
    (b.MapDiscard ctx).size ≤ b.size ∧
      (b.MapDiscard ctx).size ≤ (b.applyOps ctx ops).size ∧
      ∃ v, b.MapCurrent ctx = Except.ok (Future.ready v) ∧
        v.size ≤ b.size ∧ v.size ≤ (b.applyOps ctx ops).size := by
  have hs : (b.applyOps ctx ops).size = b.size := applyOps_size ctx ops b
  have hd : (b.MapDiscard ctx).size = b.size := rfl
  exact ⟨hd.le, by rw [hs]; exact hd.le, ⟨0, b.data_.length⟩, rfl, hd.le,
    by rw [hs]; exact hd.le⟩

/-- C10: views alias the single backing store: a byte written through one
mapped view is immediately — before any `WriteBack` — read back through a
view that was mapped earlier and is still live, through a freshly
`MapDiscard`-mapped view, and through the view in a fresh `MapCurrent`
future. -/
theorem C10_aliasing (b : SimpleBuffer) (ctx1 ctx2 ctx3 ctx4 : Context)
    (pos : Nat) (c : Byte) (h : pos < b.size) :
    (let bw := (b.MapDiscard ctx1).set b pos c
     (b.MapDiscard ctx2).idx bw pos = some c ∧
       (bw.MapDiscard ctx3).idx bw pos = some c ∧
       ∃ v, bw.MapCurrent ctx4 = Except.ok (Future.ready v) ∧
         v.idx bw pos = some c) := by
  have hset : ((b.MapDiscard ctx1).set b pos c).data_[pos]? = some c := by
    simpa [SimpleBuffer.MapDiscard, SimpleView.set] using
      getElem?_set_self_byte b.data_ pos c h
  refine ⟨?_, ?_, ⟨0, ((b.MapDiscard ctx1).set b pos c).data_.length⟩, rfl, ?_⟩ <;>
    simpa [SimpleBuffer.MapDiscard, SimpleView.idx] using hset

/-- C10 witness: aliasing at a concrete 2-byte buffer, position 0. -/
theorem C10_aliasing_witness :
    (let b := SimpleBuffer.ofData "ab".data
     let bw := (b.MapDiscard Context.mk).set b 0 'Z'
     (b.MapDiscard Context.mk).idx bw 0 = some 'Z' ∧
       (bw.MapDiscard Context.mk).idx bw 0 = some 'Z' ∧
       ∃ v, bw.MapCurrent Context.mk = Except.ok (Future.ready v) ∧
         v.idx bw 0 = some 'Z') :=
  C10_aliasing (SimpleBuffer.ofData "ab".data) Context.mk Context.mk Context.mk
    Context.mk 0 'Z' (by decide)

end Tile
